import Mathlib

/-!
Shallow embedding of the fuzzy record-matching engine of philoch_bib_sdk
(src/philoch_bib_sdk/logic/functions/fuzzy_matcher.py, with its data model
from src/philoch_bib_sdk/logic/models.py), together with theorems settling
the specification claims about index construction, candidate retrieval,
ranking and staging.

Modelling conventions:
- Python tuples and lists become Lean lists; Python sets and frozensets
  become deduplicated Lean lists (membership is the set semantics; the
  list order stands for the unspecified iteration order of a Python set).
- Python dicts become total functions with an explicit default (none for
  the DOI dict, the empty list for the bucket dicts).  In the built index
  a key is present in a bucket dict exactly when its bucket is non-empty,
  so the membership tests `k in d` of the source coincide with testing the
  bucket against the default.
- Machine floats (scores) are modelled as rationals: the engine only sums
  scorer outputs and compares the very value it stored, so the claims are
  about the computed value, whichever arithmetic produced it.
- Python integers are Lean Int; Python floor division (//) is Int.fdiv.
-/

/-- The three string variants of a BibString (models.py, BibStringAttr). -/
structure BibStringAttr where
  latex : String := ""
  unicode : String := ""
  simplified : String := ""
deriving DecidableEq, Repr

/-- Selector for the string variant used by the scorer (models.py, TBibString). -/
inductive TBibString where
  | latex
  | unicode
  | simplified
deriving DecidableEq, Repr

/-- An author (models.py, Author).  The source field `publications`, a tuple of
BibItems never read by the matcher, is omitted: keeping it would make Author
and BibItem mutually recursive without affecting any indexed feature. -/
structure Author where
  given_name : BibStringAttr
  family_name : BibStringAttr
  mononym : BibStringAttr
  shorthand : BibStringAttr
  famous_name : BibStringAttr
  id : Option Int := none
deriving DecidableEq, Repr

/-- A journal (models.py, Journal). -/
structure Journal where
  name : BibStringAttr
  issn_print : String := ""
  issn_electronic : String := ""
  id : Option Int := none
deriving DecidableEq, Repr

/-- A bib key (models.py, BibKeyAttr); date is an int or a publication
state literal. -/
structure BibKeyAttr where
  first_author : String
  other_authors : String := ""
  date : Int ⊕ String
  date_suffix : String := ""
deriving DecidableEq, Repr

/-- Structured date of a publication (models.py, BibItemDateAttr); the
optional parts model the int-or-empty-literal fields of the source. -/
structure BibItemDateAttr where
  year : Int
  year_part_2_hyphens : Option Int := none
  year_part_2_slash : Option Int := none
  month : Option Int := none
  day : Option Int := none
deriving DecidableEq, Repr

/-- The date field of a BibItem: a structured date or the literal
string value used as a sentinel for a missing date (models.py, BibItem.date). -/
inductive BibItemDate where
  | noDate
  | date (d : BibItemDateAttr)
deriving DecidableEq, Repr

/-- A bibliographic record (models.py, BibItem), restricted to the fields the
fuzzy matcher reads: doi, title, author, date, journal and (for match
formatting) bibkey.  The remaining scalar fields of the source class, which
the matcher reads only through structural equality when deduplicating sets,
are collapsed into the field `extra`, so records that differ only outside the
matcher-relevant fields remain distinct values.  `journal = none` models the
empty-string literal of the source, which is falsy. -/
structure BibItem where
  bibkey : Option BibKeyAttr := none
  author : List Author := []
  date : BibItemDate := BibItemDate.noDate
  title : BibStringAttr := {}
  journal : Option Journal := none
  doi : String := ""
  extra : String := ""
  id : Option Int := none
deriving DecidableEq, Repr

/-- Modelled from the spec: a PartialScore is a labeled score component
carrying an already-weighted numeric contribution (§3, §6; the module
philoch_bib_sdk/logic/functions/comparator.py that declares it is not under
src/). -/
structure PartialScore where
  label : String := ""
  weighted_score : Rat
deriving DecidableEq, Repr

/-- Modelled from the spec: a Match is the result of comparing one candidate
against the query — the candidate's formatted key, the candidate record, the
summed weighted score, the full list of partial scores, and a 1-based rank
(§3; the module philoch_bib_sdk/logic/models_staging.py that declares it is
not under src/). -/
structure Match where
  bibkey : String
  matched_bibitem : BibItem
  total_score : Rat
  partial_scores : List PartialScore
  rank : Nat
deriving DecidableEq, Repr

/-- Search metadata of a staged item: elapsed time in milliseconds and the
number of candidates examined (the search_metadata dict of the source). -/
structure SearchMetadata where
  search_time_ms : Int
  candidates_searched : Nat
deriving DecidableEq, Repr

/-- Modelled from the spec: a StagedItem carries the query record, its ranked
matches and the search metadata (§3; the module
philoch_bib_sdk/logic/models_staging.py that declares BibItemStaged is not
under src/). -/
structure BibItemStaged where
  bibitem : BibItem
  top_matches : List Match
  search_metadata : SearchMetadata
deriving DecidableEq, Repr

/-- Split a character list into its maximal whitespace-free runs, the words;
the accumulator holds the current run reversed.  (Structural-recursion
counterpart of the whitespace splitting of the Python str.split().) -/
def wsWords (cs : List Char) (cur : List Char) : List (List Char) :=
  match cs with
  | [] => if cur = [] then [] else [cur.reverse]
  | c :: rest =>
    if c.isWhitespace then
      if cur = [] then wsWords rest [] else cur.reverse :: wsWords rest []
    else wsWords rest (c :: cur)

/-- Modelled from the external library aletk: trim the string and collapse
every maximal run of whitespace into a single space (split on whitespace,
drop empty pieces, rejoin with single spaces). -/
def remove_extra_whitespace (s : String) : String :=
  String.intercalate " " ((wsWords s.toList []).map String.mk)

/-- Python str.lower(), character by character (the structural-recursion
counterpart of String.toLower). -/
def lowerStr (s : String) : String :=
  String.mk (s.toList.map Char.toLower)

/-- Extract 3-character n-grams from text (fuzzy_matcher.py, _extract_trigrams):
normalize (collapse whitespace, lowercase); fewer than 3 characters yields the
empty set; otherwise all overlapping 3-character substrings, as a set
(modelled as a deduplicated list). -/
def _extract_trigrams (text : String) : List String :=
  let normalized := lowerStr (remove_extra_whitespace text)
  let cs := normalized.toList
  if cs.length < 3 then []
  else ((List.range (cs.length - 2)).map (fun i => String.mk ((cs.drop i).take 3))).dedup

/-- Extract author surnames for indexing (fuzzy_matcher.py,
_extract_author_surnames): keep authors whose simplified family name is
non-empty, normalize (collapse whitespace, lowercase), return as a set
(modelled as a deduplicated list). -/
def _extract_author_surnames (authors : List Author) : List String :=
  (authors.filterMap (fun a =>
    if a.family_name.simplified ≠ "" then
      some (lowerStr (remove_extra_whitespace a.family_name.simplified))
    else none)).dedup

/-- Decade of a date (fuzzy_matcher.py, _get_decade): floor(year / 10) * 10
for a structured date, none for the no-date sentinel. -/
def _get_decade (date : BibItemDate) : Option Int :=
  match date with
  | BibItemDate.noDate => none
  | BibItemDate.date d => some ((Int.fdiv d.year 10) * 10)

/-- Normalized journal name as the source computes it at both indexing and
query time: collapse whitespace and lowercase the simplified name. -/
def normalizedJournalName (j : Journal) : String :=
  lowerStr (remove_extra_whitespace j.name.simplified)

/-- Multi-index blocking structure (fuzzy_matcher.py, BibItemBlockIndex).
The four bucket dicts are modelled as total functions defaulting to the empty
bucket, and the DOI dict as a total function defaulting to none. -/
structure BibItemBlockIndex where
  doi_index : String → Option BibItem
  title_trigrams : String → List BibItem
  author_surnames : String → List BibItem
  year_decades : Option Int → List BibItem
  journals : String → List BibItem
  all_items : List BibItem

/-- Point update of a bucket map: add the item to the bucket at key k
(the `map[k].add(item)` of the source, on a defaultdict of sets). -/
def bucketAdd {κ : Type} [DecidableEq κ] (m : κ → List BibItem) (k : κ)
    (item : BibItem) : κ → List BibItem :=
  fun q => if q = k then (m k).insert item else m q

/-- One iteration of the single-pass indexing loop of _build_index_python:
register the item under its DOI (if non-empty), every title trigram, every
author surname, its decade bucket (always), and its normalized journal name
(if present and non-empty).  all_items is left untouched, as the source sets
it independently of the loop. -/
def registerItem (idx : BibItemBlockIndex) (item : BibItem) : BibItemBlockIndex :=
  let doi_index := if item.doi ≠ "" then
      (fun k => if k = item.doi then some item else idx.doi_index k)
    else idx.doi_index
  let title_trigrams :=
    (_extract_trigrams item.title.simplified).foldl
      (fun m tg => bucketAdd m tg item) idx.title_trigrams
  let author_surnames :=
    (_extract_author_surnames item.author).foldl
      (fun m s => bucketAdd m s item) idx.author_surnames
  let year_decades := bucketAdd idx.year_decades (_get_decade item.date) item
  let journals := match item.journal with
    | some j =>
      let journal_name := normalizedJournalName j
      if journal_name ≠ "" then bucketAdd idx.journals journal_name item
      else idx.journals
    | none => idx.journals
  { doi_index := doi_index
    title_trigrams := title_trigrams
    author_surnames := author_surnames
    year_decades := year_decades
    journals := journals
    all_items := idx.all_items }

/-- The empty index over a given corpus snapshot: every mapping empty,
all_items the corpus. -/
def emptyIndexOver (bibitems : List BibItem) : BibItemBlockIndex :=
  { doi_index := fun _ => none
    title_trigrams := fun _ => []
    author_surnames := fun _ => []
    year_decades := fun _ => []
    journals := fun _ => []
    all_items := bibitems }

/-- Pure Python index construction (fuzzy_matcher.py, _build_index_python):
a single pass over the items populates all five mappings, and all_items is
the input tuple itself. -/
def _build_index_python (bibitems : List BibItem) : BibItemBlockIndex :=
  bibitems.foldl registerItem (emptyIndexOver bibitems)

/-- Public index builder (fuzzy_matcher.py, build_index).  The optional Rust
acceleration module philoch_bib_sdk._rust is an external native extension
(not part of this repository's Python sources); its import fails and the
source falls back to the pure Python path, which is the reference semantics
(spec §6 requires the accelerated path to be indistinguishable from it). -/
def build_index (bibitems : List BibItem) : BibItemBlockIndex :=
  _build_index_python bibitems

/-- Union an index bucket into the accumulated candidate set
(the `candidates.update(bucket)` of the source; insertion dedups). -/
def addBucket (acc : List BibItem) (bucket : List BibItem) : List BibItem :=
  bucket.foldl (fun a x => a.insert x) acc

/-- The blocking union of _get_candidate_set (fuzzy_matcher.py, lines after
the DOI short-circuit): union the buckets of all the query's title trigrams,
all its author surnames, its decade plus offsets from -5 to +5 decades (or
the no-date bucket when dateless), and its normalized journal name when
present and non-empty.  The key-presence tests of the source are subsumed by
the total-function bucket model, an absent key holding the empty bucket. -/
def candidateUnion (subject : BibItem) (index : BibItemBlockIndex) : List BibItem :=
  let c1 := (_extract_trigrams subject.title.simplified).foldl
    (fun acc tg => addBucket acc (index.title_trigrams tg)) []
  let c2 := (_extract_author_surnames subject.author).foldl
    (fun acc s => addBucket acc (index.author_surnames s)) c1
  let c3 := match _get_decade subject.date with
    | some subject_decade =>
      (List.range 11).foldl
        (fun acc i => addBucket acc
          (index.year_decades (some (subject_decade + ((i : Int) - 5) * 10)))) c2
    | none => addBucket c2 (index.year_decades none)
  match subject.journal with
  | some j =>
    let journal_name := normalizedJournalName j
    if journal_name ≠ "" then addBucket c3 (index.journals journal_name) else c3
  | none => c3

/-- Candidate retrieval (fuzzy_matcher.py, _get_candidate_set): a non-empty
DOI found in the DOI index short-circuits to a singleton; otherwise the
blocking union, falling back to the whole corpus (as a set, hence dedup)
when the union is empty. -/
def _get_candidate_set (subject : BibItem) (index : BibItemBlockIndex) : List BibItem :=
  match (if subject.doi ≠ "" then index.doi_index subject.doi else none) with
  | some item => [item]
  | none =>
    let candidates := candidateUnion subject index
    if candidates = [] then index.all_items.dedup else candidates

/-- Modelled from the external library cytoolz: topk n key returns the n
largest elements by key, in descending key order (heap-based in the source;
behaviourally sorted-descending-then-take; the source spec leaves tie order
unspecified). -/
def topk {α : Type} (n : Nat) (l : List α) (key : α → Rat) : List α :=
  (l.insertionSort (fun a b => key b ≤ key a)).take n

/-- Python enumerate with a start index, used to assign 1-based ranks. -/
def enumerateFrom {α : Type} (start : Nat) : List α → List (Nat × α)
  | [] => []
  | x :: xs => (start, x) :: enumerateFrom (start + 1) xs

/-- Modelled from the spec: format_bibkey renders a bib key as the
candidate's formatted key string (§3; the module
converters/plaintext/bibitem/bibkey_formatter.py is not under src/).  Its
output string is opaque to every claim; the model renders the author and
suffix parts. -/
def format_bibkey (bk : Option BibKeyAttr) : String :=
  match bk with
  | none => ""
  | some k => k.first_author ++ k.other_authors ++ k.date_suffix

/-- The type of the external detailed scorer (fuzzy_matcher.py imports
compare_bibitems_detailed, whose module is not under src/; spec §6 specifies
only its interface): candidate, query and string variant to an ordered
sequence of partial scores.  The ranking theorems quantify over it. -/
def Scorer : Type := BibItem → BibItem → TBibString → List PartialScore

/-- Ranking (fuzzy_matcher.py, find_similar_bibitems): score every candidate
with the external scorer, total the weighted contributions, filter by
min_score (inclusive), keep the top_n by total score, and build Match values
with 1-based ranks. -/
def find_similar_bibitems (scorer : Scorer) (subject : BibItem)
    (index : BibItemBlockIndex) (top_n : Nat) (min_score : Rat)
    (bibstring_type : TBibString) : List Match :=
  let candidates := _get_candidate_set subject index
  let scored_items := candidates.map (fun c => (c, scorer c subject bibstring_type))
  let with_totals := scored_items.map
    (fun cp => (cp.1, cp.2, (cp.2.map PartialScore.weighted_score).sum))
  let filtered := with_totals.filter (fun x => min_score ≤ x.2.2)
  let top_results := topk top_n filtered (fun x => x.2.2)
  (enumerateFrom 1 top_results).map (fun rt =>
    { bibkey := format_bibkey rt.2.1.bibkey
      matched_bibitem := rt.2.1
      total_score := rt.2.2.2
      partial_scores := rt.2.2.1
      rank := rt.1 })

/-- Staging of a single query (fuzzy_matcher.py, stage_bibitem): candidate
retrieval plus ranking with the default simplified string variant, wrapped
with search metadata.  The wall-clock timer around the two calls is an
environment observation with no functional content; it is modelled as 0 ms
(the claims compare staged results timing metadata aside). -/
def stage_bibitem (scorer : Scorer) (bibitem : BibItem)
    (index : BibItemBlockIndex) (top_n : Nat) (min_score : Rat) : BibItemStaged :=
  let candidates := _get_candidate_set bibitem index
  let top_matches := find_similar_bibitems scorer bibitem index top_n min_score
    TBibString.simplified
  { bibitem := bibitem
    top_matches := top_matches
    search_metadata :=
      { search_time_ms := 0
        candidates_searched := candidates.length } }

/-- Batch staging (fuzzy_matcher.py, stage_bibitems_batch): one staged result
per input record, in input order. -/
def stage_bibitems_batch (scorer : Scorer) (bibitems : List BibItem)
    (index : BibItemBlockIndex) (top_n : Nat) (min_score : Rat) : List BibItemStaged :=
  bibitems.map (fun bibitem => stage_bibitem scorer bibitem index top_n min_score)

/-- Streaming staging (fuzzy_matcher.py, stage_bibitems_streaming): the
generator yields one staged result per input record as it walks the input
once; its embedding is the list of its yields, produced by direct
recursion over the input. -/
def stage_bibitems_streaming (scorer : Scorer) (bibitems : List BibItem)
    (index : BibItemBlockIndex) (top_n : Nat) (min_score : Rat) : List BibItemStaged :=
  match bibitems with
  | [] => []
  | bibitem :: rest =>
    stage_bibitem scorer bibitem index top_n min_score ::
      stage_bibitems_streaming scorer rest index top_n min_score

/-! Concrete demonstration data used to instantiate the theorems on
executable inputs: a tiny corpus of records with assorted field coverage,
some query records, and the trivial scorer. -/

/-- Demonstration record with a DOI, a title and a 1994 date. -/
def itemA : BibItem :=
  { doi := "10.1/a"
    title := { simplified := "Analysis of Quantum Effects" }
    date := BibItemDate.date { year := 1994 }
    extra := "A" }

/-- Demonstration record with a 1991 date and nothing else. -/
def itemB : BibItem :=
  { date := BibItemDate.date { year := 1991 }
    extra := "B" }

/-- Demonstration record with no identifier, title, authors, journal or
date at all. -/
def itemC : BibItem :=
  { extra := "C" }

/-- Demonstration record with a 1993 date and nothing else. -/
def itemD : BibItem :=
  { date := BibItemDate.date { year := 1993 }
    extra := "D" }

/-- A three-record demonstration corpus. -/
def corpusABC : List BibItem := [itemA, itemB, itemC]

/-- The blocking index over corpusABC. -/
def idxABC : BibItemBlockIndex := build_index corpusABC

/-- A two-record demonstration corpus whose records share the 1990 decade. -/
def corpusBD : List BibItem := [itemB, itemD]

/-- A query sharing only its DOI with itemA, every other field different. -/
def queryDoi : BibItem :=
  { doi := "10.1/a"
    title := { simplified := "Completely unrelated words" }
    date := BibItemDate.date { year := 2020 }
    extra := "Q1" }

/-- A query sharing no feature with corpusABC (1700 is more than five
decades away from every indexed decade). -/
def queryFar : BibItem :=
  { date := BibItemDate.date { year := 1700 }
    extra := "Q2" }

/-- A query dated 1960, three decades below the 1990 bucket of corpusABC. -/
def query1960 : BibItem :=
  { date := BibItemDate.date { year := 1960 }
    extra := "Q3" }

/-- A query dated 1992, in the same decade as both records of corpusBD. -/
def queryBD : BibItem :=
  { date := BibItemDate.date { year := 1992 }
    extra := "Q4" }

/-- The trivial external scorer, returning no partial scores. -/
def zeroScorer : Scorer := fun _ _ _ => []

/-! Basic lemmas about the set-as-deduplicated-list operations. -/

theorem mem_foldl_insert (l : List BibItem) (acc : List BibItem) (x : BibItem) :
    x ∈ l.foldl (fun a y => a.insert y) acc ↔ x ∈ acc ∨ x ∈ l := by
  induction l generalizing acc with
  | nil => simp
  | cons y ys ih =>
    simp only [List.foldl_cons, ih, List.mem_insert_iff, List.mem_cons]
    tauto

theorem nodup_foldl_insert (l : List BibItem) (acc : List BibItem)
    (h : acc.Nodup) : (l.foldl (fun a y => a.insert y) acc).Nodup := by
  induction l generalizing acc with
  | nil => simpa
  | cons y ys ih => exact ih _ (h.insert)

theorem mem_addBucket (acc bucket : List BibItem) (x : BibItem) :
    x ∈ addBucket acc bucket ↔ x ∈ acc ∨ x ∈ bucket :=
  mem_foldl_insert bucket acc x

theorem nodup_addBucket (acc bucket : List BibItem) (h : acc.Nodup) :
    (addBucket acc bucket).Nodup :=
  nodup_foldl_insert bucket acc h

theorem mem_foldl_addBucket {κ : Type} (f : κ → List BibItem) (keys : List κ)
    (init : List BibItem) (x : BibItem) :
    x ∈ keys.foldl (fun acc k => addBucket acc (f k)) init ↔
      x ∈ init ∨ ∃ k ∈ keys, x ∈ f k := by
  induction keys generalizing init with
  | nil => simp
  | cons k ks ih =>
    simp only [List.foldl_cons, ih, mem_addBucket, List.mem_cons]
    constructor
    · rintro (⟨hx | hx⟩ | ⟨k0, hk0, hx⟩)
      · exact Or.inl hx
      · exact Or.inr ⟨k, Or.inl rfl, hx⟩
      · exact Or.inr ⟨k0, Or.inr hk0, hx⟩
    · rintro (hx | ⟨k0, hk0 | hk0, hx⟩)
      · exact Or.inl (Or.inl hx)
      · exact Or.inl (Or.inr (hk0 ▸ hx))
      · exact Or.inr ⟨k0, hk0, hx⟩

theorem nodup_foldl_addBucket {κ : Type} (f : κ → List BibItem) (keys : List κ)
    (init : List BibItem) (h : init.Nodup) :
    (keys.foldl (fun acc k => addBucket acc (f k)) init).Nodup := by
  induction keys generalizing init with
  | nil => simpa
  | cons k ks ih => exact ih _ (nodup_addBucket _ _ h)

theorem mem_bucketAdd {κ : Type} [DecidableEq κ] (m : κ → List BibItem) (k : κ)
    (item : BibItem) (q : κ) (x : BibItem) :
    x ∈ bucketAdd m k item q ↔ x ∈ m q ∨ (q = k ∧ x = item) := by
  unfold bucketAdd
  by_cases hq : q = k
  · subst hq
    simp [List.mem_insert_iff]
    tauto
  · simp [hq]

theorem mem_foldl_bucketAdd {κ : Type} [DecidableEq κ] (keys : List κ)
    (m0 : κ → List BibItem) (item : BibItem) (q : κ) (x : BibItem) :
    x ∈ (keys.foldl (fun m k => bucketAdd m k item) m0) q ↔
      x ∈ m0 q ∨ (q ∈ keys ∧ x = item) := by
  induction keys generalizing m0 with
  | nil => simp
  | cons k ks ih =>
    simp only [List.foldl_cons, ih, mem_bucketAdd, List.mem_cons]
    tauto

/-! Lemmas about the rank-assignment and top-k helpers. -/

theorem length_enumerateFrom {α : Type} (start : Nat) (l : List α) :
    (enumerateFrom start l).length = l.length := by
  induction l generalizing start with
  | nil => rfl
  | cons x xs ih => simp [enumerateFrom, ih]

theorem get_enumerateFrom {α : Type} (start : Nat) (l : List α) (i : Nat)
    (h : i < (enumerateFrom start l).length) (h2 : i < l.length) :
    (enumerateFrom start l).get ⟨i, h⟩ = (start + i, l.get ⟨i, h2⟩) := by
  induction l generalizing start i with
  | nil => simp at h2
  | cons x xs ih =>
    cases i with
    | zero => simp [enumerateFrom]
    | succ j =>
      have hj : j < (enumerateFrom (start + 1) xs).length := by
        simpa [enumerateFrom, length_enumerateFrom] using h
      have hj2 : j < xs.length := by simpa using h2
      have := ih (start + 1) j hj hj2
      simp only [enumerateFrom, List.get_cons_succ]
      rw [this]
      congr 1
      omega

theorem snd_mem_of_mem_enumerateFrom {α : Type} (start : Nat) (l : List α)
    (p : Nat × α) (h : p ∈ enumerateFrom start l) : p.2 ∈ l := by
  induction l generalizing start with
  | nil => simp [enumerateFrom] at h
  | cons x xs ih =>
    simp only [enumerateFrom, List.mem_cons] at h
    rcases h with h | h
    · subst h; simp
    · exact List.mem_cons_of_mem _ (ih (start + 1) h)

theorem map_snd_enumerateFrom {α : Type} (start : Nat) (l : List α) :
    (enumerateFrom start l).map Prod.snd = l := by
  induction l generalizing start with
  | nil => rfl
  | cons x xs ih => simp [enumerateFrom, ih]

theorem length_topk_le {α : Type} (n : Nat) (l : List α) (key : α → Rat) :
    (topk n l key).length ≤ n := by
  simp [topk, List.length_take]

theorem topk_subset {α : Type} (n : Nat) (l : List α) (key : α → Rat) :
    ∀ x ∈ topk n l key, x ∈ l := by
  intro x hx
  have h1 : x ∈ l.insertionSort (fun a b => key b ≤ key a) :=
    List.take_subset _ _ hx
  exact (List.perm_insertionSort _ l).mem_iff.mp h1

theorem topk_sorted {α : Type} (n : Nat) (l : List α) (key : α → Rat) :
    (topk n l key).Pairwise (fun a b => key b ≤ key a) := by
  letI : IsTotal α (fun a b => key b ≤ key a) := ⟨fun a b => le_total (key b) (key a)⟩
  letI : IsTrans α (fun a b => key b ≤ key a) :=
    ⟨fun _ _ _ h1 h2 => le_trans h2 h1⟩
  have hs : (l.insertionSort (fun a b => key b ≤ key a)).Pairwise
      (fun a b => key b ≤ key a) :=
    List.sorted_insertionSort _ l
  exact List.Pairwise.sublist (List.take_sublist n _) hs

/-! Invariants of index construction. -/

/-- Soundness of an index: every record reachable through any of the five
mappings belongs to all_items. -/
def IndexSound (idx : BibItemBlockIndex) : Prop :=
  (∀ k r, idx.doi_index k = some r → r ∈ idx.all_items) ∧
  (∀ k r, r ∈ idx.title_trigrams k → r ∈ idx.all_items) ∧
  (∀ k r, r ∈ idx.author_surnames k → r ∈ idx.all_items) ∧
  (∀ k r, r ∈ idx.year_decades k → r ∈ idx.all_items) ∧
  (∀ k r, r ∈ idx.journals k → r ∈ idx.all_items)

theorem all_items_registerItem (idx : BibItemBlockIndex) (item : BibItem) :
    (registerItem idx item).all_items = idx.all_items := rfl

theorem all_items_foldl_registerItem (l : List BibItem) (idx : BibItemBlockIndex) :
    (l.foldl registerItem idx).all_items = idx.all_items := by
  induction l generalizing idx with
  | nil => rfl
  | cons x xs ih => simp [List.foldl_cons, ih, all_items_registerItem]

theorem build_index_all_items (bibitems : List BibItem) :
    (build_index bibitems).all_items = bibitems := by
  simp [build_index, _build_index_python, all_items_foldl_registerItem, emptyIndexOver]

theorem registerItem_doi_index (idx : BibItemBlockIndex) (item : BibItem) :
    (registerItem idx item).doi_index =
      if item.doi ≠ "" then
        (fun k => if k = item.doi then some item else idx.doi_index k)
      else idx.doi_index := rfl

theorem registerItem_title_trigrams (idx : BibItemBlockIndex) (item : BibItem) :
    (registerItem idx item).title_trigrams =
      (_extract_trigrams item.title.simplified).foldl
        (fun m tg => bucketAdd m tg item) idx.title_trigrams := rfl

theorem registerItem_author_surnames (idx : BibItemBlockIndex) (item : BibItem) :
    (registerItem idx item).author_surnames =
      (_extract_author_surnames item.author).foldl
        (fun m s => bucketAdd m s item) idx.author_surnames := rfl

theorem registerItem_year_decades (idx : BibItemBlockIndex) (item : BibItem) :
    (registerItem idx item).year_decades =
      bucketAdd idx.year_decades (_get_decade item.date) item := rfl

theorem registerItem_journals (idx : BibItemBlockIndex) (item : BibItem) :
    (registerItem idx item).journals =
      match item.journal with
      | some j =>
        if normalizedJournalName j ≠ "" then
          bucketAdd idx.journals (normalizedJournalName j) item
        else idx.journals
      | none => idx.journals := rfl

theorem indexSound_registerItem (idx : BibItemBlockIndex) (item : BibItem)
    (hs : IndexSound idx) (hm : item ∈ idx.all_items) :
    IndexSound (registerItem idx item) := by
  obtain ⟨hdoi, htri, hsur, hdec, hjor⟩ := hs
  refine ⟨?_, ?_, ?_, ?_, ?_⟩
  · intro k r hr
    rw [registerItem_doi_index] at hr
    rw [all_items_registerItem]
    by_cases hd : item.doi ≠ ""
    · rw [if_pos hd] at hr
      by_cases hk : k = item.doi
      · rw [if_pos hk] at hr
        cases hr
        exact hm
      · rw [if_neg hk] at hr
        exact hdoi k r hr
    · rw [if_neg hd] at hr
      exact hdoi k r hr
  · intro k r hr
    rw [registerItem_title_trigrams, mem_foldl_bucketAdd] at hr
    rw [all_items_registerItem]
    rcases hr with hr | ⟨_, rfl⟩
    · exact htri k r hr
    · exact hm
  · intro k r hr
    rw [registerItem_author_surnames, mem_foldl_bucketAdd] at hr
    rw [all_items_registerItem]
    rcases hr with hr | ⟨_, rfl⟩
    · exact hsur k r hr
    · exact hm
  · intro k r hr
    rw [registerItem_year_decades, mem_bucketAdd] at hr
    rw [all_items_registerItem]
    rcases hr with hr | ⟨_, rfl⟩
    · exact hdec k r hr
    · exact hm
  · intro k r hr
    rw [registerItem_journals] at hr
    rw [all_items_registerItem]
    rcases hj : item.journal with _ | j
    · rw [hj] at hr
      exact hjor k r hr
    · rw [hj] at hr
      have hr2 : r ∈ (if normalizedJournalName j ≠ "" then
          bucketAdd idx.journals (normalizedJournalName j) item
        else idx.journals) k := hr
      by_cases hn : normalizedJournalName j ≠ ""
      · rw [if_pos hn] at hr2
        rw [mem_bucketAdd] at hr2
        rcases hr2 with hr2 | ⟨_, rfl⟩
        · exact hjor k r hr2
        · exact hm
      · rw [if_neg hn] at hr2
        exact hjor k r hr2

theorem indexSound_foldl_registerItem (l : List BibItem) (idx : BibItemBlockIndex)
    (hs : IndexSound idx) (hl : ∀ x ∈ l, x ∈ idx.all_items) :
    IndexSound (l.foldl registerItem idx) := by
  induction l generalizing idx with
  | nil => simpa
  | cons x xs ih =>
    simp only [List.foldl_cons]
    refine ih (registerItem idx x) ?_ ?_
    · exact indexSound_registerItem idx x hs (hl x (List.mem_cons_self x xs))
    · intro y hy
      rw [all_items_registerItem]
      exact hl y (List.mem_cons_of_mem x hy)

theorem indexSound_build_index (bibitems : List BibItem) :
    IndexSound (build_index bibitems) := by
  refine indexSound_foldl_registerItem bibitems (emptyIndexOver bibitems) ?_ ?_
  · refine ⟨?_, ?_, ?_, ?_, ?_⟩ <;> intro k r hr <;> simp [emptyIndexOver] at hr
  · intro x hx
    simpa [emptyIndexOver] using hx

theorem year_decades_registerItem (idx : BibItemBlockIndex) (item : BibItem)
    (d : Option Int) (r : BibItem) :
    r ∈ (registerItem idx item).year_decades d ↔
      r ∈ idx.year_decades d ∨ (r = item ∧ d = _get_decade item.date) := by
  rw [registerItem_year_decades, mem_bucketAdd]
  tauto

theorem year_decades_foldl_registerItem (l : List BibItem) (idx : BibItemBlockIndex)
    (d : Option Int) (r : BibItem) :
    r ∈ (l.foldl registerItem idx).year_decades d ↔
      r ∈ idx.year_decades d ∨ (r ∈ l ∧ d = _get_decade r.date) := by
  induction l generalizing idx with
  | nil => simp
  | cons x xs ih =>
    simp only [List.foldl_cons, ih, year_decades_registerItem, List.mem_cons]
    constructor
    · rintro (⟨hr | ⟨rfl, hd⟩⟩ | ⟨hr, hd⟩)
      · exact Or.inl hr
      · exact Or.inr ⟨Or.inl rfl, hd⟩
      · exact Or.inr ⟨Or.inr hr, hd⟩
    · rintro (hr | ⟨rfl | hr, hd⟩)
      · exact Or.inl (Or.inl hr)
      · exact Or.inl (Or.inr ⟨rfl, hd⟩)
      · exact Or.inr ⟨hr, hd⟩

theorem year_decades_build_index (bibitems : List BibItem) (d : Option Int)
    (r : BibItem) :
    r ∈ (build_index bibitems).year_decades d ↔
      r ∈ bibitems ∧ d = _get_decade r.date := by
  rw [build_index, _build_index_python, year_decades_foldl_registerItem]
  simp [emptyIndexOver]

/-! Lemmas about candidate retrieval. -/

theorem mem_candidateUnion (subject : BibItem) (index : BibItemBlockIndex)
    (x : BibItem) :
    x ∈ candidateUnion subject index ↔
      (∃ tg ∈ _extract_trigrams subject.title.simplified, x ∈ index.title_trigrams tg) ∨
      (∃ s ∈ _extract_author_surnames subject.author, x ∈ index.author_surnames s) ∨
      (∃ d0, _get_decade subject.date = some d0 ∧
        ∃ i ∈ List.range 11, x ∈ index.year_decades (some (d0 + ((i : Int) - 5) * 10))) ∨
      (_get_decade subject.date = none ∧ x ∈ index.year_decades none) ∨
      (∃ j, subject.journal = some j ∧ normalizedJournalName j ≠ "" ∧
        x ∈ index.journals (normalizedJournalName j)) := by
  rcases hd : _get_decade subject.date with _ | d0 <;>
    rcases hj : subject.journal with _ | j
  · have hcu : candidateUnion subject index =
        addBucket
          ((_extract_author_surnames subject.author).foldl
            (fun acc s => addBucket acc (index.author_surnames s))
            ((_extract_trigrams subject.title.simplified).foldl
              (fun acc tg => addBucket acc (index.title_trigrams tg)) []))
          (index.year_decades none) := by
      simp only [candidateUnion, hd, hj]
    rw [hcu, mem_addBucket,
      mem_foldl_addBucket (fun s => index.author_surnames s)
        (_extract_author_surnames subject.author),
      mem_foldl_addBucket (fun tg => index.title_trigrams tg)
        (_extract_trigrams subject.title.simplified)]
    simp only [hd, hj, List.not_mem_nil, false_or, reduceCtorEq, false_and,
      exists_false, and_true, exists_and_left, Option.some.injEq]
    aesop
  · have hcu : candidateUnion subject index =
        (if normalizedJournalName j ≠ "" then
          addBucket
            (addBucket
              ((_extract_author_surnames subject.author).foldl
                (fun acc s => addBucket acc (index.author_surnames s))
                ((_extract_trigrams subject.title.simplified).foldl
                  (fun acc tg => addBucket acc (index.title_trigrams tg)) []))
              (index.year_decades none))
            (index.journals (normalizedJournalName j))
        else
          addBucket
            ((_extract_author_surnames subject.author).foldl
              (fun acc s => addBucket acc (index.author_surnames s))
              ((_extract_trigrams subject.title.simplified).foldl
                (fun acc tg => addBucket acc (index.title_trigrams tg)) []))
            (index.year_decades none)) := by
      simp only [candidateUnion, hd, hj]
    by_cases hn : normalizedJournalName j ≠ ""
    · rw [hcu, if_pos hn, mem_addBucket, mem_addBucket,
        mem_foldl_addBucket (fun s => index.author_surnames s)
          (_extract_author_surnames subject.author),
        mem_foldl_addBucket (fun tg => index.title_trigrams tg)
          (_extract_trigrams subject.title.simplified)]
      simp only [hd, hj, List.not_mem_nil, false_or, reduceCtorEq, false_and,
        exists_false, and_true, Option.some.injEq, exists_eq_left, hn, true_and]
      aesop
    · rw [hcu, if_neg hn, mem_addBucket,
        mem_foldl_addBucket (fun s => index.author_surnames s)
          (_extract_author_surnames subject.author),
        mem_foldl_addBucket (fun tg => index.title_trigrams tg)
          (_extract_trigrams subject.title.simplified)]
      simp only [hd, hj, List.not_mem_nil, false_or, reduceCtorEq, false_and,
        exists_false, and_true, Option.some.injEq, exists_eq_left, hn,
        false_and, or_false]
      aesop
  · have hcu : candidateUnion subject index =
        (List.range 11).foldl
          (fun acc i => addBucket acc
            (index.year_decades (some (d0 + ((i : Int) - 5) * 10))))
          ((_extract_author_surnames subject.author).foldl
            (fun acc s => addBucket acc (index.author_surnames s))
            ((_extract_trigrams subject.title.simplified).foldl
              (fun acc tg => addBucket acc (index.title_trigrams tg)) [])) := by
      simp only [candidateUnion, hd, hj]
    rw [hcu,
      mem_foldl_addBucket
        (fun i => index.year_decades (some (d0 + ((i : Int) - 5) * 10)))
        (List.range 11),
      mem_foldl_addBucket (fun s => index.author_surnames s)
        (_extract_author_surnames subject.author),
      mem_foldl_addBucket (fun tg => index.title_trigrams tg)
        (_extract_trigrams subject.title.simplified)]
    simp only [hd, hj, List.not_mem_nil, false_or, reduceCtorEq, false_and,
      exists_false, and_false, or_false, Option.some.injEq, exists_eq_left]
    aesop
  · have hcu : candidateUnion subject index =
        (if normalizedJournalName j ≠ "" then
          addBucket
            ((List.range 11).foldl
              (fun acc i => addBucket acc
                (index.year_decades (some (d0 + ((i : Int) - 5) * 10))))
              ((_extract_author_surnames subject.author).foldl
                (fun acc s => addBucket acc (index.author_surnames s))
                ((_extract_trigrams subject.title.simplified).foldl
                  (fun acc tg => addBucket acc (index.title_trigrams tg)) [])))
            (index.journals (normalizedJournalName j))
        else
          (List.range 11).foldl
            (fun acc i => addBucket acc
              (index.year_decades (some (d0 + ((i : Int) - 5) * 10))))
            ((_extract_author_surnames subject.author).foldl
              (fun acc s => addBucket acc (index.author_surnames s))
              ((_extract_trigrams subject.title.simplified).foldl
                (fun acc tg => addBucket acc (index.title_trigrams tg)) []))) := by
      simp only [candidateUnion, hd, hj]
    by_cases hn : normalizedJournalName j ≠ ""
    · rw [hcu, if_pos hn, mem_addBucket,
        mem_foldl_addBucket
          (fun i => index.year_decades (some (d0 + ((i : Int) - 5) * 10)))
          (List.range 11),
        mem_foldl_addBucket (fun s => index.author_surnames s)
          (_extract_author_surnames subject.author),
        mem_foldl_addBucket (fun tg => index.title_trigrams tg)
          (_extract_trigrams subject.title.simplified)]
      simp only [hd, hj, List.not_mem_nil, false_or, reduceCtorEq, false_and,
        exists_false, and_false, or_false, Option.some.injEq, exists_eq_left,
        hn, true_and]
      aesop
    · rw [hcu, if_neg hn,
        mem_foldl_addBucket
          (fun i => index.year_decades (some (d0 + ((i : Int) - 5) * 10)))
          (List.range 11),
        mem_foldl_addBucket (fun s => index.author_surnames s)
          (_extract_author_surnames subject.author),
        mem_foldl_addBucket (fun tg => index.title_trigrams tg)
          (_extract_trigrams subject.title.simplified)]
      simp only [hd, hj, List.not_mem_nil, false_or, reduceCtorEq, false_and,
        exists_false, and_false, or_false, Option.some.injEq, exists_eq_left,
        hn, false_and]
      aesop

theorem nodup_candidateUnion (subject : BibItem) (index : BibItemBlockIndex) :
    (candidateUnion subject index).Nodup := by
  have h0 : (List.nil : List BibItem).Nodup := List.nodup_nil
  rcases hd : _get_decade subject.date with _ | d0 <;>
    rcases hj : subject.journal with _ | j <;>
      simp only [candidateUnion, hd, hj]
  · exact nodup_addBucket _ _ (nodup_foldl_addBucket _ _ _ (nodup_foldl_addBucket _ _ _ h0))
  · by_cases hn : normalizedJournalName j ≠ ""
    · rw [if_pos hn]
      exact nodup_addBucket _ _ (nodup_addBucket _ _
        (nodup_foldl_addBucket _ _ _ (nodup_foldl_addBucket _ _ _ h0)))
    · rw [if_neg hn]
      exact nodup_addBucket _ _ (nodup_foldl_addBucket _ _ _ (nodup_foldl_addBucket _ _ _ h0))
  · exact nodup_foldl_addBucket _ _ _ (nodup_foldl_addBucket _ _ _ (nodup_foldl_addBucket _ _ _ h0))
  · by_cases hn : normalizedJournalName j ≠ ""
    · rw [if_pos hn]
      exact nodup_addBucket _ _ (nodup_foldl_addBucket _ _ _
        (nodup_foldl_addBucket _ _ _ (nodup_foldl_addBucket _ _ _ h0)))
    · rw [if_neg hn]
      exact nodup_foldl_addBucket _ _ _ (nodup_foldl_addBucket _ _ _ (nodup_foldl_addBucket _ _ _ h0))

theorem get_candidate_set_short_circuit (subject : BibItem)
    (index : BibItemBlockIndex) (r : BibItem) (h1 : subject.doi ≠ "")
    (h2 : index.doi_index subject.doi = some r) :
    _get_candidate_set subject index = [r] := by
  simp [_get_candidate_set, h1, h2]

theorem get_candidate_set_no_short_circuit (subject : BibItem)
    (index : BibItemBlockIndex)
    (h : (if subject.doi ≠ "" then index.doi_index subject.doi else none) = none) :
    _get_candidate_set subject index =
      if candidateUnion subject index = [] then index.all_items.dedup
      else candidateUnion subject index := by
  simp only [_get_candidate_set, h]

theorem nodup_get_candidate_set (subject : BibItem) (index : BibItemBlockIndex) :
    (_get_candidate_set subject index).Nodup := by
  rcases hI : (if subject.doi ≠ "" then index.doi_index subject.doi else none) with _ | item
  · rw [get_candidate_set_no_short_circuit subject index hI]
    by_cases hc : candidateUnion subject index = []
    · rw [if_pos hc]
      exact index.all_items.nodup_dedup
    · rw [if_neg hc]
      exact nodup_candidateUnion subject index
  · simp only [_get_candidate_set, hI]
    exact List.nodup_singleton item

theorem candidateUnion_subset_all_items (subject : BibItem)
    (index : BibItemBlockIndex) (hs : IndexSound index) :
    ∀ x ∈ candidateUnion subject index, x ∈ index.all_items := by
  intro x hx
  rw [mem_candidateUnion] at hx
  obtain ⟨-, htri, hsur, hdec, hjor⟩ := hs
  rcases hx with ⟨tg, _, hx⟩ | ⟨s, _, hx⟩ | ⟨d0, _, i, _, hx⟩ | ⟨_, hx⟩ | ⟨j, _, _, hx⟩
  · exact htri tg x hx
  · exact hsur s x hx
  · exact hdec _ x hx
  · exact hdec none x hx
  · exact hjor _ x hx

theorem get_candidate_set_subset_all_items (subject : BibItem)
    (index : BibItemBlockIndex) (hs : IndexSound index) :
    ∀ x ∈ _get_candidate_set subject index, x ∈ index.all_items := by
  intro x hx
  rcases hI : (if subject.doi ≠ "" then index.doi_index subject.doi else none) with _ | item
  · rw [get_candidate_set_no_short_circuit subject index hI] at hx
    by_cases hc : candidateUnion subject index = []
    · rw [if_pos hc, List.mem_dedup] at hx
      exact hx
    · rw [if_neg hc] at hx
      exact candidateUnion_subset_all_items subject index hs x hx
  · simp only [_get_candidate_set, hI, List.mem_singleton] at hx
    subst hx
    have hd : index.doi_index subject.doi = some x := by
      by_cases h1 : subject.doi ≠ ""
      · rwa [if_pos h1] at hI
      · rw [if_neg h1] at hI
        cases hI
    exact hs.1 subject.doi x hd

theorem length_get_candidate_set_le (subject : BibItem) (corpus : List BibItem) :
    (_get_candidate_set subject (build_index corpus)).length ≤ corpus.length := by
  have hnd := nodup_get_candidate_set subject (build_index corpus)
  have hsub : ∀ x ∈ _get_candidate_set subject (build_index corpus), x ∈ corpus := by
    intro x hx
    have h1 := get_candidate_set_subset_all_items subject (build_index corpus)
      (indexSound_build_index corpus) x hx
    rwa [build_index_all_items] at h1
  calc (_get_candidate_set subject (build_index corpus)).length
      = (_get_candidate_set subject (build_index corpus)).toFinset.card :=
        (List.toFinset_card_of_nodup hnd).symm
    _ ≤ corpus.toFinset.card := by
        refine Finset.card_le_card ?_
        intro x hx
        exact List.mem_toFinset.mpr (hsub x (List.mem_toFinset.mp hx))
    _ ≤ corpus.length := List.toFinset_card_le corpus

/-! Lemmas about the ranking pipeline. -/

theorem find_similar_eq (scorer : Scorer) (subject : BibItem)
    (index : BibItemBlockIndex) (top_n : Nat) (min_score : Rat)
    (bibstring_type : TBibString) :
    find_similar_bibitems scorer subject index top_n min_score bibstring_type =
      (enumerateFrom 1
        (topk top_n
          ((((_get_candidate_set subject index).map
              (fun c => (c, scorer c subject bibstring_type))).map
            (fun cp => (cp.1, cp.2, (cp.2.map PartialScore.weighted_score).sum))).filter
            (fun x => min_score ≤ x.2.2))
          (fun x => x.2.2))).map
        (fun rt =>
          { bibkey := format_bibkey rt.2.1.bibkey
            matched_bibitem := rt.2.1
            total_score := rt.2.2.2
            partial_scores := rt.2.2.1
            rank := rt.1 }) := rfl

theorem length_find_similar_le (scorer : Scorer) (subject : BibItem)
    (index : BibItemBlockIndex) (top_n : Nat) (min_score : Rat)
    (bibstring_type : TBibString) :
    (find_similar_bibitems scorer subject index top_n min_score bibstring_type).length
      ≤ top_n := by
  rw [find_similar_eq, List.length_map, length_enumerateFrom]
  exact length_topk_le _ _ _

theorem rank_find_similar (scorer : Scorer) (subject : BibItem)
    (index : BibItemBlockIndex) (top_n : Nat) (min_score : Rat)
    (bibstring_type : TBibString) (i : Nat)
    (h : i < (find_similar_bibitems scorer subject index top_n min_score
      bibstring_type).length) :
    ((find_similar_bibitems scorer subject index top_n min_score
      bibstring_type).get ⟨i, h⟩).rank = i + 1 := by
  have h2 := h
  rw [find_similar_eq] at h2
  have hget := List.get_of_eq
    (find_similar_eq scorer subject index top_n min_score bibstring_type) ⟨i, h⟩
  rw [hget, List.get_map]
  have h3 : i < (enumerateFrom 1
      (topk top_n
        ((((_get_candidate_set subject index).map
            (fun c => (c, scorer c subject bibstring_type))).map
          (fun cp => (cp.1, cp.2, (cp.2.map PartialScore.weighted_score).sum))).filter
          (fun x => min_score ≤ x.2.2))
        (fun x => x.2.2))).length := by
    rw [List.length_map] at h2
    exact h2
  have h4 : i < (topk top_n
      ((((_get_candidate_set subject index).map
          (fun c => (c, scorer c subject bibstring_type))).map
        (fun cp => (cp.1, cp.2, (cp.2.map PartialScore.weighted_score).sum))).filter
        (fun x => min_score ≤ x.2.2))
      (fun x => x.2.2)).length := by
    rw [length_enumerateFrom] at h3
    exact h3
  rw [get_enumerateFrom 1 _ i h3 h4]
  show 1 + i = i + 1
  omega

theorem scores_find_similar_sorted (scorer : Scorer) (subject : BibItem)
    (index : BibItemBlockIndex) (top_n : Nat) (min_score : Rat)
    (bibstring_type : TBibString) :
    ((find_similar_bibitems scorer subject index top_n min_score
      bibstring_type).map Match.total_score).Pairwise (fun a b => b ≤ a) := by
  rw [find_similar_eq, List.map_map]
  have h1 : (Match.total_score ∘ fun rt =>
      ({ bibkey := format_bibkey rt.2.1.bibkey
         matched_bibitem := rt.2.1
         total_score := rt.2.2.2
         partial_scores := rt.2.2.1
         rank := rt.1 } : Match)) =
      (fun (x : BibItem × List PartialScore × Rat) => x.2.2) ∘ Prod.snd := rfl
  rw [h1, ← List.map_map]
  rw [map_snd_enumerateFrom]
  rw [List.pairwise_map]
  exact topk_sorted _ _ _

theorem mem_find_similar (scorer : Scorer) (subject : BibItem)
    (index : BibItemBlockIndex) (top_n : Nat) (min_score : Rat)
    (bibstring_type : TBibString) (m : Match)
    (hm : m ∈ find_similar_bibitems scorer subject index top_n min_score
      bibstring_type) :
    ∃ c ∈ _get_candidate_set subject index,
      m.matched_bibitem = c ∧
      m.partial_scores = scorer c subject bibstring_type ∧
      m.total_score =
        ((scorer c subject bibstring_type).map PartialScore.weighted_score).sum ∧
      min_score ≤ m.total_score := by
  rw [find_similar_eq] at hm
  rw [List.mem_map] at hm
  obtain ⟨rt, hrt, hmeq⟩ := hm
  have h1 := snd_mem_of_mem_enumerateFrom 1 _ rt hrt
  have h2 := topk_subset _ _ _ rt.2 h1
  rw [List.mem_filter] at h2
  obtain ⟨h3, h4⟩ := h2
  rw [List.mem_map] at h3
  obtain ⟨cp, hcp, hcpeq⟩ := h3
  rw [List.mem_map] at hcp
  obtain ⟨c, hc, hceq⟩ := hcp
  refine ⟨c, hc, ?_, ?_, ?_, ?_⟩
  · rw [← hmeq]
    show rt.2.1 = c
    rw [← hcpeq, ← hceq]
  · rw [← hmeq]
    show rt.2.2.1 = scorer c subject bibstring_type
    rw [← hcpeq, ← hceq]
  · rw [← hmeq]
    show rt.2.2.2 = ((scorer c subject bibstring_type).map PartialScore.weighted_score).sum
    rw [← hcpeq, ← hceq]
  · rw [← hmeq]
    show min_score ≤ rt.2.2.2
    exact of_decide_eq_true h4

/-! Theorems settling the specification claims. -/

/-- C1: for every index and every query whose doi is non-empty and mapped by
the exact-identifier index, candidate retrieval returns exactly the singleton
list of the record stored under that identifier, whatever the query's other
fields are; no other blocking lookup contributes. -/
theorem doi_short_circuit_singleton (subject : BibItem)
    (index : BibItemBlockIndex) (r : BibItem) (h1 : subject.doi ≠ "")
    (h2 : index.doi_index subject.doi = some r) :
    _get_candidate_set subject index = [r] :=
  get_candidate_set_short_circuit subject index r h1 h2

/-- Witness for C1: querying the demonstration index with a record that
shares only itemA's DOI retrieves exactly itemA. -/
theorem doi_short_circuit_singleton_witness :
    _get_candidate_set queryDoi idxABC = [itemA] :=
  doi_short_circuit_singleton queryDoi idxABC itemA (by decide) (by decide)

/-- C2: over a non-empty corpus, candidate retrieval never returns an empty
set; and when the identifier lookup misses and the blocking union is empty,
it falls back to the set of all records of all_items. -/
theorem candidate_set_nonempty (corpus : List BibItem) (subject : BibItem)
    (hne : corpus ≠ []) :
    _get_candidate_set subject (build_index corpus) ≠ [] ∧
    ((if subject.doi ≠ "" then (build_index corpus).doi_index subject.doi
        else none) = none →
      candidateUnion subject (build_index corpus) = [] →
      _get_candidate_set subject (build_index corpus) = corpus.dedup) := by
  constructor
  · rcases hI : (if subject.doi ≠ "" then (build_index corpus).doi_index subject.doi
        else none) with _ | item
    · rw [get_candidate_set_no_short_circuit _ _ hI]
      by_cases hc : candidateUnion subject (build_index corpus) = []
      · rw [if_pos hc, build_index_all_items]
        simp [List.dedup_eq_nil, hne]
      · rw [if_neg hc]
        exact hc
    · simp only [_get_candidate_set, hI]
      simp
  · intro hI hc
    rw [get_candidate_set_no_short_circuit _ _ hI, if_pos hc, build_index_all_items]

/-- Witness for C2: a query sharing no feature with the demonstration corpus
falls back to the whole (deduplicated) corpus, which is non-empty. -/
theorem candidate_set_nonempty_witness :
    _get_candidate_set queryFar idxABC = corpusABC.dedup :=
  (candidate_set_nonempty corpusABC queryFar (by decide)).2 (by decide) (by decide)

/-- C5: when the exact-identifier short-circuit does not apply, a dated query
pulls in every indexed record whose decade bucket is the query's decade
(floor(year / 10) * 10) plus an offset between -50 and +50 years in steps of
10, and a dateless query pulls in every record of the no-date bucket. -/
theorem decade_window_candidates (corpus : List BibItem) (subject : BibItem)
    (hsc : (if subject.doi ≠ "" then (build_index corpus).doi_index subject.doi
      else none) = none) :
    (∀ da, subject.date = BibItemDate.date da →
      ∀ offset ∈ ([-50, -40, -30, -20, -10, 0, 10, 20, 30, 40, 50] : List Int),
        ∀ r ∈ corpus,
          _get_decade r.date = some ((Int.fdiv da.year 10) * 10 + offset) →
          r ∈ _get_candidate_set subject (build_index corpus)) ∧
    (subject.date = BibItemDate.noDate →
      ∀ r ∈ corpus, _get_decade r.date = none →
        r ∈ _get_candidate_set subject (build_index corpus)) := by
  have hsub : ∀ r, r ∈ candidateUnion subject (build_index corpus) →
      r ∈ _get_candidate_set subject (build_index corpus) := by
    intro r hr
    rw [get_candidate_set_no_short_circuit _ _ hsc]
    have hne : candidateUnion subject (build_index corpus) ≠ [] :=
      List.ne_nil_of_mem hr
    rw [if_neg hne]
    exact hr
  constructor
  · intro da hda offset hoff r hr hd
    apply hsub
    rw [mem_candidateUnion]
    refine Or.inr (Or.inr (Or.inl ?_))
    refine ⟨(Int.fdiv da.year 10) * 10, by simp [_get_decade, hda], ?_⟩
    have hall : ∀ o ∈ ([-50, -40, -30, -20, -10, 0, 10, 20, 30, 40, 50] : List Int),
        ∃ i ∈ List.range 11, ((i : Int) - 5) * 10 = o := by decide
    obtain ⟨i, hirange, hie⟩ := hall offset hoff
    refine ⟨i, hirange, ?_⟩
    rw [hie]
    exact (year_decades_build_index corpus _ r).mpr ⟨hr, hd.symm⟩
  · intro hnd r hr hd
    apply hsub
    rw [mem_candidateUnion]
    refine Or.inr (Or.inr (Or.inr (Or.inl ?_)))
    exact ⟨by simp [_get_decade, hnd],
      (year_decades_build_index corpus none r).mpr ⟨hr, hd.symm⟩⟩

/-- Witness for C5: a 1960-dated query (decade 1960) retrieves the 1994
record itemA, whose decade 1990 is the query's decade plus 30 years. -/
theorem decade_window_candidates_witness :
    itemA ∈ _get_candidate_set query1960 idxABC :=
  (decade_window_candidates corpusABC query1960 (by decide)).1
    { year := 1960 } rfl 30 (by decide) itemA (by decide) (by decide)

/-- C3: for every scorer, query, index, top_n and min_score, find_similar
returns at most top_n matches, their rank fields are exactly 1..length in
output order, and their total scores are non-increasing from first to last. -/
theorem find_similar_rank_and_order (scorer : Scorer) (subject : BibItem)
    (index : BibItemBlockIndex) (top_n : Nat) (min_score : Rat)
    (bibstring_type : TBibString) :
    (find_similar_bibitems scorer subject index top_n min_score
      bibstring_type).length ≤ top_n ∧
    (∀ i (h : i < (find_similar_bibitems scorer subject index top_n min_score
        bibstring_type).length),
      ((find_similar_bibitems scorer subject index top_n min_score
        bibstring_type).get ⟨i, h⟩).rank = i + 1) ∧
    ((find_similar_bibitems scorer subject index top_n min_score
      bibstring_type).map Match.total_score).Pairwise (fun a b => b ≤ a) :=
  ⟨length_find_similar_le scorer subject index top_n min_score bibstring_type,
   fun i h => rank_find_similar scorer subject index top_n min_score
     bibstring_type i h,
   scores_find_similar_sorted scorer subject index top_n min_score bibstring_type⟩

/-- Witness for C3: on the demonstration corpus the dateless query yields one
match, whose rank is 1, within the requested bound of 2. -/
theorem find_similar_rank_and_order_witness :
    (find_similar_bibitems zeroScorer itemC idxABC 2 0
      TBibString.simplified).length ≤ 2 ∧
    ((find_similar_bibitems zeroScorer itemC idxABC 2 0
      TBibString.simplified).get ⟨0, by decide⟩).rank = 0 + 1 :=
  ⟨(find_similar_rank_and_order zeroScorer itemC idxABC 2 0
      TBibString.simplified).1,
   (find_similar_rank_and_order zeroScorer itemC idxABC 2 0
      TBibString.simplified).2.1 0 (by decide)⟩

/-- C4: every returned match scores at least min_score (inclusive bound),
and its total score is the sum of the weighted contributions of its partial
scores as produced by the external scorer. -/
theorem find_similar_min_score (scorer : Scorer) (subject : BibItem)
    (index : BibItemBlockIndex) (top_n : Nat) (min_score : Rat)
    (bibstring_type : TBibString) (m : Match)
    (hm : m ∈ find_similar_bibitems scorer subject index top_n min_score
      bibstring_type) :
    min_score ≤ m.total_score ∧
    m.total_score = (m.partial_scores.map PartialScore.weighted_score).sum := by
  obtain ⟨c, -, -, hps, hts, hmin⟩ :=
    mem_find_similar scorer subject index top_n min_score bibstring_type m hm
  refine ⟨hmin, ?_⟩
  rw [hts, hps]

/-- Witness for C4: the single match returned for the dateless query scores
at least the threshold 0 and its total is the sum of its partial scores. -/
theorem find_similar_min_score_witness :
    (0 : Rat) ≤ ((find_similar_bibitems zeroScorer itemC idxABC 2 0
      TBibString.simplified).get ⟨0, by decide⟩).total_score ∧
    ((find_similar_bibitems zeroScorer itemC idxABC 2 0
      TBibString.simplified).get ⟨0, by decide⟩).total_score =
      ((((find_similar_bibitems zeroScorer itemC idxABC 2 0
        TBibString.simplified).get ⟨0, by decide⟩).partial_scores).map
          PartialScore.weighted_score).sum :=
  find_similar_min_score zeroScorer itemC idxABC 2 0 TBibString.simplified
    ((find_similar_bibitems zeroScorer itemC idxABC 2 0
      TBibString.simplified).get ⟨0, by decide⟩) (by decide)

/-- C6: for every corpus, the built index's all_items is exactly the input in
its original order, every record reachable through any of the five mappings
belongs to all_items, and building over the empty corpus yields an empty
all_items and empty mappings. -/
theorem build_index_invariant (corpus : List BibItem) :
    (build_index corpus).all_items = corpus ∧
    (∀ k r, (build_index corpus).doi_index k = some r →
      r ∈ (build_index corpus).all_items) ∧
    (∀ k r, r ∈ (build_index corpus).title_trigrams k →
      r ∈ (build_index corpus).all_items) ∧
    (∀ k r, r ∈ (build_index corpus).author_surnames k →
      r ∈ (build_index corpus).all_items) ∧
    (∀ k r, r ∈ (build_index corpus).year_decades k →
      r ∈ (build_index corpus).all_items) ∧
    (∀ k r, r ∈ (build_index corpus).journals k →
      r ∈ (build_index corpus).all_items) ∧
    ((build_index ([] : List BibItem)).all_items = [] ∧
      (∀ k, (build_index ([] : List BibItem)).doi_index k = none) ∧
      (∀ k, (build_index ([] : List BibItem)).title_trigrams k = []) ∧
      (∀ k, (build_index ([] : List BibItem)).author_surnames k = []) ∧
      (∀ k, (build_index ([] : List BibItem)).year_decades k = []) ∧
      (∀ k, (build_index ([] : List BibItem)).journals k = [])) := by
  obtain ⟨hdoi, htri, hsur, hdec, hjor⟩ := indexSound_build_index corpus
  exact ⟨build_index_all_items corpus, hdoi, htri, hsur, hdec, hjor,
    rfl, fun k => rfl, fun k => rfl, fun k => rfl, fun k => rfl, fun k => rfl⟩

/-- Witness for C6: the demonstration index's all_items is the corpus, and
the record found under itemA's DOI belongs to it. -/
theorem build_index_invariant_witness :
    (build_index corpusABC).all_items = corpusABC ∧ itemA ∈ corpusABC :=
  ⟨(build_index_invariant corpusABC).1,
   (build_index_invariant corpusABC).1 ▸
     (build_index_invariant corpusABC).2.1 "10.1/a" itemA (by decide)⟩

/-- C7: index construction never drops a record: every input record appears
in all_items and sits in exactly the decade bucket of its own date (the
no-date bucket when dateless), missing fields notwithstanding. -/
theorem build_index_never_drops (corpus : List BibItem) (item : BibItem)
    (hitem : item ∈ corpus) :
    item ∈ (build_index corpus).all_items ∧
    (∀ d, item ∈ (build_index corpus).year_decades d ↔ d = _get_decade item.date) := by
  constructor
  · rw [build_index_all_items]
    exact hitem
  · intro d
    rw [year_decades_build_index]
    constructor
    · rintro ⟨-, hd⟩
      exact hd
    · intro hd
      exact ⟨hitem, hd⟩

/-- Witness for C7: the record with no identifier, title, authors, journal
or date is still indexed, in the no-date bucket. -/
theorem build_index_never_drops_witness :
    itemC ∈ (build_index corpusABC).year_decades none :=
  ((build_index_never_drops corpusABC itemC (by decide)).2 none).mpr (by decide)

/-- C8 counterexample: staging a query over a two-record corpus whose records
share the query's decade gives candidates_searched equal to the corpus size
although the fallback did not fire — the blocking union is non-empty and is
itself the whole candidate set.  This refutes the claim's clause that
candidates_searched is not the corpus size unless the fallback fired. -/
theorem stage_candidates_can_equal_corpus_size :
    (stage_bibitem zeroScorer queryBD (build_index corpusBD) 5
      0).search_metadata.candidates_searched = corpusBD.length ∧
    candidateUnion queryBD (build_index corpusBD) ≠ [] ∧
    _get_candidate_set queryBD (build_index corpusBD) =
      candidateUnion queryBD (build_index corpusBD) := by
  refine ⟨by decide, by decide, by decide⟩

/-- C8 (amended): batch staging returns one result per input record, in input
order, the i-th result staging the i-th query; each result's
candidates_searched equals the exact size of that query's candidate set, and
is at most the corpus size (it can equal it even without the fallback). -/
theorem stage_batch_results (scorer : Scorer) (corpus : List BibItem)
    (bibitems : List BibItem) (top_n : Nat) (min_score : Rat) (i : Nat)
    (h : i < bibitems.length)
    (h2 : i < (stage_bibitems_batch scorer bibitems (build_index corpus) top_n
      min_score).length) :
    (stage_bibitems_batch scorer bibitems (build_index corpus) top_n
      min_score).length = bibitems.length ∧
    (stage_bibitems_batch scorer bibitems (build_index corpus) top_n
      min_score).get ⟨i, h2⟩ =
      stage_bibitem scorer (bibitems.get ⟨i, h⟩) (build_index corpus) top_n
        min_score ∧
    ((stage_bibitems_batch scorer bibitems (build_index corpus) top_n
      min_score).get ⟨i, h2⟩).search_metadata.candidates_searched =
      (_get_candidate_set (bibitems.get ⟨i, h⟩) (build_index corpus)).length ∧
    ((stage_bibitems_batch scorer bibitems (build_index corpus) top_n
      min_score).get ⟨i, h2⟩).search_metadata.candidates_searched ≤
      corpus.length := by
  have hget : (stage_bibitems_batch scorer bibitems (build_index corpus) top_n
      min_score).get ⟨i, h2⟩ =
      stage_bibitem scorer (bibitems.get ⟨i, h⟩) (build_index corpus) top_n
        min_score := by
    have h3 : stage_bibitems_batch scorer bibitems (build_index corpus) top_n
        min_score = bibitems.map
          (fun b => stage_bibitem scorer b (build_index corpus) top_n min_score) :=
      rfl
    have h4 := List.get_of_eq h3 ⟨i, h2⟩
    rw [h4, List.get_map]
  refine ⟨List.length_map _ _, hget, ?_, ?_⟩
  · rw [hget]
    rfl
  · rw [hget]
    show (_get_candidate_set (bibitems.get ⟨i, h⟩) (build_index corpus)).length ≤
      corpus.length
    exact length_get_candidate_set_le _ corpus

/-- Witness for C8 (amended): staging the single query over the two-record
demonstration corpus reports the candidate-set size, bounded by the corpus
size. -/
theorem stage_batch_results_witness :
    ((stage_bibitems_batch zeroScorer [queryBD] (build_index corpusBD) 5
      0).get ⟨0, by decide⟩).search_metadata.candidates_searched =
      (_get_candidate_set queryBD (build_index corpusBD)).length ∧
    ((stage_bibitems_batch zeroScorer [queryBD] (build_index corpusBD) 5
      0).get ⟨0, by decide⟩).search_metadata.candidates_searched ≤
      corpusBD.length :=
  ⟨(stage_batch_results zeroScorer corpusBD [queryBD] 5 0 0 (by decide)
      (by decide)).2.2.1,
   (stage_batch_results zeroScorer corpusBD [queryBD] 5 0 0 (by decide)
      (by decide)).2.2.2⟩

/-- C9: streaming staging yields, element for element and in order, exactly
the same staged results as batch staging on the same arguments, one result
per input record. -/
theorem streaming_equals_batch (scorer : Scorer) (bibitems : List BibItem)
    (index : BibItemBlockIndex) (top_n : Nat) (min_score : Rat) :
    stage_bibitems_streaming scorer bibitems index top_n min_score =
      stage_bibitems_batch scorer bibitems index top_n min_score ∧
    (stage_bibitems_streaming scorer bibitems index top_n min_score).length =
      bibitems.length := by
  have hmain : stage_bibitems_streaming scorer bibitems index top_n min_score =
      stage_bibitems_batch scorer bibitems index top_n min_score := by
    induction bibitems with
    | nil => rfl
    | cons b bs ih =>
      show stage_bibitem scorer b index top_n min_score ::
          stage_bibitems_streaming scorer bs index top_n min_score =
        stage_bibitem scorer b index top_n min_score ::
          stage_bibitems_batch scorer bs index top_n min_score
      rw [ih]
  refine ⟨hmain, ?_⟩
  rw [hmain]
  exact List.length_map bibitems _

/-- C10: every match returned by the ranker over a built index is drawn from
the query's candidate set, hence from the indexed corpus; the ranker never
fabricates a record. -/
theorem matches_come_from_candidates (scorer : Scorer) (corpus : List BibItem)
    (subject : BibItem) (top_n : Nat) (min_score : Rat)
    (bibstring_type : TBibString) (m : Match)
    (hm : m ∈ find_similar_bibitems scorer subject (build_index corpus) top_n
      min_score bibstring_type) :
    m.matched_bibitem ∈ _get_candidate_set subject (build_index corpus) ∧
    m.matched_bibitem ∈ (build_index corpus).all_items := by
  obtain ⟨c, hc, hmb, -, -, -⟩ :=
    mem_find_similar scorer subject (build_index corpus) top_n min_score
      bibstring_type m hm
  refine ⟨hmb ▸ hc, ?_⟩
  rw [hmb]
  exact get_candidate_set_subset_all_items subject (build_index corpus)
    (indexSound_build_index corpus) c hc

/-- Witness for C10: the single match for the dateless query is a member of
its candidate set and of the corpus. -/
theorem matches_come_from_candidates_witness :
    ((find_similar_bibitems zeroScorer itemC (build_index corpusABC) 2 0
      TBibString.simplified).get ⟨0, by decide⟩).matched_bibitem ∈
      _get_candidate_set itemC (build_index corpusABC) ∧
    ((find_similar_bibitems zeroScorer itemC (build_index corpusABC) 2 0
      TBibString.simplified).get ⟨0, by decide⟩).matched_bibitem ∈
      (build_index corpusABC).all_items :=
  matches_come_from_candidates zeroScorer corpusABC itemC 2 0
    TBibString.simplified
    ((find_similar_bibitems zeroScorer itemC (build_index corpusABC) 2 0
      TBibString.simplified).get ⟨0, by decide⟩) (by decide)
